import Mathlib

/-
  Verification development for the rbspy core sources:
    src/lib.rs               (C ABI surface: copy_error, rbspy_init/snapshot/cleanup)
    src/core/initialize.rs   (StackTraceGetter, get_trace, bootstrap retry loop,
                              version dispatch tables)
    src/recorder/snapshot.rs (one-shot snapshot helper)

  Shallow embedding conventions:
  - Strings manipulated at the byte level by the C ABI are modelled as
    `List Char`; all payloads involved are ASCII, so Rust byte indices from
    `str::find` coincide with character indices.
  - Fallible Rust code is modelled with `Except`/`Option`; a Rust `panic!` or an
    out-of-range slice is modelled as the error/`none` outcome.
  - Rust loops whose termination is in question receive an explicit fuel
    parameter; exhausting fuel (`none` / `.fuelOut`) models non-termination.
  - External capabilities (the remoteprocess Target Handle, the per-version
    readers in ruby_version.rs, the address finder) are not under src/ and are
    modelled as oracles/parameters, following the spec where their shape matters.
-/

namespace Rbspy

/-- First index (character = byte index for ASCII) at which `pat` occurs as a
contiguous substring of `s`; `none` if it does not occur.  Mirrors Rust
`str::find` on ASCII strings (in particular, the empty pattern matches at 0). -/
def findSub : List Char → List Char → Option Nat
  | [], pat => if pat.isEmpty then some 0 else none
  | c :: t, pat =>
    if pat.isPrefixOf (c :: t) then some 0 else (findSub t pat).map (· + 1)

/-- Map a fallible function over a list, failing if any element fails.
Models a Rust loop that pushes results and can panic/propagate mid-way. -/
def mapOpt (f : α → Option β) : List α → Option (List β)
  | [] => some []
  | a :: l =>
    match f a, mapOpt f l with
    | some b, some bs => some (b :: bs)
    | _, _ => none

/-- Ordered lookup in an association table (first matching key wins), used to
model a Rust `match` over disjoint string-literal arms. -/
def tableLookup : List (String × String) → String → Option String
  | [], _ => none
  | (k, v) :: rest, q => if k = q then some v else tableLookup rest q

/- ===== Version dispatch (src/core/initialize.rs, is_maybe_thread_function
   and get_stack_trace_function) ===== -/

/-- A bound per-version reader callable; the payload records which
`ruby_version::ruby_X` item the source match arm selects. -/
inductive ReaderFn where
  | reader (item : String)
deriving DecidableEq

/-- The message of the `panic!` in the default arm of both dispatch matches in
initialize.rs, with the `\x7b\x7d` placeholder replaced by the version. -/
def unsupportedVersionMessage (version : String) : String :=
  "The target process\x27s Ruby version is not supported yet. In the meantime, you can try using `--force-version " ++ version ++ "`."

/-- The (version key, ruby_version module) rows shared verbatim by the two
dispatch matches in initialize.rs; one row per non-default match arm, in
source order. -/
def rubyVersionModules : List (String × String) :=
  [("1.9.1", "ruby_1_9_1_0"), ("1.9.2", "ruby_1_9_2_0"), ("1.9.3", "ruby_1_9_3_0"),
   ("2.0.0", "ruby_2_0_0_0"),
   ("2.1.0", "ruby_2_1_0"), ("2.1.1", "ruby_2_1_1"), ("2.1.2", "ruby_2_1_2"),
   ("2.1.3", "ruby_2_1_3"), ("2.1.4", "ruby_2_1_4"), ("2.1.5", "ruby_2_1_5"),
   ("2.1.6", "ruby_2_1_6"), ("2.1.7", "ruby_2_1_7"), ("2.1.8", "ruby_2_1_8"),
   ("2.1.9", "ruby_2_1_9"), ("2.1.10", "ruby_2_1_10"),
   ("2.2.0", "ruby_2_2_0"), ("2.2.1", "ruby_2_2_1"), ("2.2.2", "ruby_2_2_2"),
   ("2.2.3", "ruby_2_2_3"), ("2.2.4", "ruby_2_2_4"), ("2.2.5", "ruby_2_2_5"),
   ("2.2.6", "ruby_2_2_6"), ("2.2.7", "ruby_2_2_7"), ("2.2.8", "ruby_2_2_8"),
   ("2.2.9", "ruby_2_2_9"), ("2.2.10", "ruby_2_2_10"),
   ("2.3.0", "ruby_2_3_0"), ("2.3.1", "ruby_2_3_1"), ("2.3.2", "ruby_2_3_2"),
   ("2.3.3", "ruby_2_3_3"), ("2.3.4", "ruby_2_3_4"), ("2.3.5", "ruby_2_3_5"),
   ("2.3.6", "ruby_2_3_6"), ("2.3.7", "ruby_2_3_7"), ("2.3.8", "ruby_2_3_8"),
   ("2.4.0", "ruby_2_4_0"), ("2.4.1", "ruby_2_4_1"), ("2.4.2", "ruby_2_4_2"),
   ("2.4.3", "ruby_2_4_3"), ("2.4.4", "ruby_2_4_4"), ("2.4.5", "ruby_2_4_5"),
   ("2.4.6", "ruby_2_4_6"), ("2.4.7", "ruby_2_4_7"), ("2.4.8", "ruby_2_4_8"),
   ("2.4.9", "ruby_2_4_9"), ("2.4.10", "ruby_2_4_10"),
   ("2.5.0", "ruby_2_5_0"), ("2.5.1", "ruby_2_5_1"), ("2.5.2", "ruby_2_5_2"),
   ("2.5.3", "ruby_2_5_3"), ("2.5.4", "ruby_2_5_4"), ("2.5.5", "ruby_2_5_5"),
   ("2.5.6", "ruby_2_5_6"), ("2.5.7", "ruby_2_5_7"), ("2.5.8", "ruby_2_5_8"),
   ("2.5.9", "ruby_2_5_9"),
   ("2.6.0", "ruby_2_6_0"), ("2.6.1", "ruby_2_6_1"), ("2.6.2", "ruby_2_6_2"),
   ("2.6.3", "ruby_2_6_3"), ("2.6.4", "ruby_2_6_4"), ("2.6.5", "ruby_2_6_5"),
   ("2.6.6", "ruby_2_6_6"), ("2.6.7", "ruby_2_6_7"), ("2.6.8", "ruby_2_6_8"),
   ("2.6.9", "ruby_2_6_9"), ("2.6.10", "ruby_2_6_10"),
   ("2.7.0", "ruby_2_7_0"), ("2.7.1", "ruby_2_7_1"), ("2.7.2", "ruby_2_7_2"),
   ("2.7.3", "ruby_2_7_3"), ("2.7.4", "ruby_2_7_4"), ("2.7.5", "ruby_2_7_5"),
   ("2.7.6", "ruby_2_7_6"), ("2.7.7", "ruby_2_7_7"),
   ("3.0.0", "ruby_3_0_0"), ("3.0.1", "ruby_3_0_1"), ("3.0.2", "ruby_3_0_2"),
   ("3.0.3", "ruby_3_0_3"), ("3.0.4", "ruby_3_0_4"), ("3.0.5", "ruby_3_0_5"),
   ("3.1.0", "ruby_3_1_0"), ("3.1.1", "ruby_3_1_1"), ("3.1.2", "ruby_3_1_2"),
   ("3.1.3", "ruby_3_1_3")]

/-- is_maybe_thread_function from initialize.rs: an exact-match dispatch over
`rubyVersionModules` (one table row per source match arm).  The source's
default arm is `panic!`; the panic is modelled as the terminal `.error`
outcome carrying the panic message. -/
def is_maybe_thread_function (version : String) : Except String ReaderFn :=
  match tableLookup rubyVersionModules version with
  | some m => .ok (.reader (m ++ "::is_maybe_thread"))
  | none => .error (unsupportedVersionMessage version)

/-- get_stack_trace_function from initialize.rs: same exact-match dispatch
(same keys, selecting each module's get_stack_trace); default arm panics
with the same message, modelled as the terminal `.error` outcome. -/
def get_stack_trace_function (version : String) : Except String ReaderFn :=
  match tableLookup rubyVersionModules version with
  | some m => .ok (.reader (m ++ "::get_stack_trace"))
  | none => .error (unsupportedVersionMessage version)

/-- The exact set of supported version keys (the keys of the dispatch table). -/
def supportedVersions : List String := rubyVersionModules.map Prod.fst

/- ===== copy_error (src/lib.rs) ===== -/

/-- The literal fallback message written by copy_error when the requested
message does not fit in the error buffer. -/
def errorBufferTooSmall : String := "error buffer is too small"

/-- copy_error from src/lib.rs.  The source recurses on itself whenever the
message does not fit, so a fuel parameter makes the recursion explicit:
`none` means the source call never returns.  On success the result is the
returned i32 value together with the message whose bytes were written to
the error buffer.  (Messages involved are ASCII, so `String.length` equals
the source's byte length; the `l as i32` cast never wraps for them.) -/
def copy_error : Nat → Int → String → Option (Int × String)
  | 0, _, _ => none
  | fuel + 1, errLen, s =>
    if (s.length : Int) > errLen then copy_error fuel errLen errorBufferTooSmall
    else some (-(s.length : Int), s)

/-- Closed form of `copy_error` for callers: `none` exactly when the call
would recurse forever (buffer smaller than the fallback message and the
requested message does not fit). -/
def copyErrorResult (errLen : Int) (s : String) : Option (Int × String) :=
  if (s.length : Int) > errLen then
    if (errorBufferTooSmall.length : Int) > errLen then none
    else some (-(errorBufferTooSmall.length : Int), errorBufferTooSmall)
  else some (-(s.length : Int), s)

/- ===== Core data model (spec §3; types.rs is not under src/) ===== -/

/-- Modelled from the spec: a Frame (§3) as rendered by the C ABI; types.rs
(StackFrame) is not under src/.  Only the fields the C ABI renders are kept. -/
structure StackFrame where
  name : String
  path : String
  lineno : Nat
deriving DecidableEq

/-- Modelled from the spec: a Stack Trace (§3) — pid, on_cpu, frames ordered
innermost first / outer-most last; types.rs (StackTrace) is not under src/. -/
structure StackTrace where
  pid : Option Nat
  frames : List StackFrame
  on_cpu : Option Bool
deriving DecidableEq

/-- Modelled from the spec: the MemoryCopyError taxonomy (§7) — the variants
get_trace in initialize.rs inspects, plus a catch-all; types.rs is not under
src/. -/
inductive MemoryCopyError where
  | invalidAddressError (addr : Nat)
  | processEnded
  | other (msg : String)
deriving DecidableEq

/-- The per-bootstrap Ruby VM state produced by get_process_ruby_state
(initialize.rs): the three discovered slots plus the bound reader. -/
structure RubyState where
  currentThreadAddr : Nat
  vmAddr : Nat
  globalSymbolsAddr : Option Nat
  fn : ReaderFn
deriving DecidableEq

/-- StackTraceGetter from initialize.rs (the owned Process handle is
represented by its pid, the only use get_trace makes of it besides the
oracles below). -/
structure StackTraceGetter where
  pid : Nat
  currentThreadAddrLocation : Nat
  rubyVmAddrLocation : Nat
  globalSymbolsAddrLocation : Option Nat
  stackTraceFn : ReaderFn
  reinitCount : Nat
  lockProcess : Bool
  onCpu : Bool
deriving DecidableEq

/-- Oracle for the external effects one get_trace call can perform, in order:
the thread list (each entry the result of Thread::active()), the first
get_trace_from_current_thread outcome, the get_process_ruby_state outcome
used by reinitialize, the second get_trace_from_current_thread outcome, and
whether process.exe() succeeds.  A lock-acquisition failure inside
get_trace_from_current_thread is folded into the corresponding attempt
outcome. -/
structure TraceEnv where
  threads : Except String (List (Except String Bool))
  attempt1 : Except MemoryCopyError (Option StackTrace)
  reinit : Except String RubyState
  attempt2 : Except MemoryCopyError (Option StackTrace)
  exeOk : Bool

/-- Observable events of one get_trace call, in execution order. -/
inductive TraceEv where
  | onCpuCheck
  | lockAcquire
  | sampleCall
  | reinitCall
deriving DecidableEq

/-- Errors surfaced by get_trace (anyhow contexts flattened). -/
inductive GetTraceErr where
  | onCpu (e : String)
  | mem (e : MemoryCopyError)
  | reinitFailed (e : String)
deriving DecidableEq

/-- The loop body of is_on_cpu_os_specific: first Thread::active() error
propagates; a true short-circuits; an empty remainder yields false. -/
def anyActive : List (Except String Bool) → Except String Bool
  | [] => .ok false
  | .error e :: _ => .error e
  | .ok true :: _ => .ok true
  | .ok false :: rest => anyActive rest

/-- is_on_cpu_os_specific from initialize.rs: propagate a threads() failure,
else scan the threads for an active one. -/
def is_on_cpu_os_specific (threads : Except String (List (Except String Bool))) :
    Except String Bool :=
  threads.bind anyActive

/-- Events of one get_trace_from_current_thread call: the scoped lock is
acquired first when lock_process is set, then the bound reader is invoked. -/
def attemptEvents (lockProcess : Bool) : List TraceEv :=
  (if lockProcess then [TraceEv.lockAcquire] else []) ++ [TraceEv.sampleCall]

instance {ε α : Type} [DecidableEq ε] [DecidableEq α] : DecidableEq (Except ε α) :=
  fun x y =>
    match x, y with
    | .error a, .error b => decidable_of_iff (a = b) (by simp)
    | .error _, .ok _ => isFalse (fun h => Except.noConfusion h)
    | .ok _, .error _ => isFalse (fun h => Except.noConfusion h)
    | .ok a, .ok b => decidable_of_iff (a = b) (by simp)

/-- Result of one get_trace call: the returned value, the getter after the
call (get_trace takes &mut self), and the event log. -/
structure GetTraceOut where
  result : Except GetTraceErr (Option StackTrace)
  getter : StackTraceGetter
  events : List TraceEv
deriving DecidableEq

/-- The `Err(e)` arm of get_trace's match: probe process.exe(); if the probe
fails the target is gone (ProcessEnded), otherwise propagate `e`. -/
def handleOtherError (g : StackTraceGetter) (env : TraceEnv) (e : MemoryCopyError)
    (evs : List TraceEv) : GetTraceOut :=
  if env.exeOk then ⟨.error (.mem e), g, evs⟩
  else ⟨.error (.mem .processEnded), g, evs⟩

/-- The getter state after a successful reinitialize: all discovered state is
replaced (the fresh Process handle has the same pid) and reinit_count is
incremented. -/
def applyReinit (g : StackTraceGetter) (st : RubyState) : StackTraceGetter :=
  { g with
      currentThreadAddrLocation := st.currentThreadAddr
      rubyVmAddrLocation := st.vmAddr
      globalSymbolsAddrLocation := st.globalSymbolsAddr
      stackTraceFn := st.fn
      reinitCount := g.reinitCount + 1 }

/-- get_trace from initialize.rs after the on-CPU gate: first sample attempt;
on success stamp trace.pid; on InvalidAddressError at exactly the current
thread slot, reinitialize once and surface the second attempt verbatim
(note: no pid stamping on that path); on any other error, probe exe(). -/
def get_trace_core (g : StackTraceGetter) (env : TraceEnv) (evs0 : List TraceEv) :
    GetTraceOut :=
  let evs1 := evs0 ++ attemptEvents g.lockProcess
  match env.attempt1 with
  | .ok (some t) => ⟨.ok (some { t with pid := some g.pid }), g, evs1⟩
  | .ok none => ⟨.ok none, g, evs1⟩
  | .error (.invalidAddressError addr) =>
    if addr = g.currentThreadAddrLocation then
      match env.reinit with
      | .error e => ⟨.error (.reinitFailed e), g, evs1 ++ [.reinitCall]⟩
      | .ok st =>
        let g' := applyReinit g st
        let evs2 := evs1 ++ [.reinitCall] ++ attemptEvents g'.lockProcess
        match env.attempt2 with
        | .ok r => ⟨.ok r, g', evs2⟩
        | .error e => ⟨.error (.mem e), g', evs2⟩
    else handleOtherError g env (.invalidAddressError addr) evs1
  | .error e => handleOtherError g env e evs1

/-- get_trace from initialize.rs: when on_cpu is set, query the per-thread
on-CPU state before anything else (in particular before any lock); if no
thread is on CPU return Ok(None) without sampling. -/
def get_trace (g : StackTraceGetter) (env : TraceEnv) : GetTraceOut :=
  if g.onCpu then
    match is_on_cpu_os_specific env.threads with
    | .error e => ⟨.error (.onCpu e), g, [.onCpuCheck]⟩
    | .ok false => ⟨.ok none, g, [.onCpuCheck]⟩
    | .ok true => get_trace_core g env [.onCpuCheck]
  else get_trace_core g env []

/- ===== Bootstrap retry loop (src/core/initialize.rs, get_process_ruby_state) ===== -/

/-- Rust byte-wise string comparison (`<` on `&str`), restricted to the ASCII
strings compared by initialize.rs (version triples). -/
def charsLt : List Char → List Char → Bool
  | [], [] => false
  | [], _ :: _ => true
  | _ :: _, [] => false
  | a :: as, b :: bs =>
    if a.toNat < b.toNat then true
    else if b.toNat < a.toNat then false
    else charsLt as bs

/-- Rust `a < b` on strings (byte order = char order for ASCII). -/
def strLt (a b : String) : Bool := charsLt a.toList b.toList

/-- Terminal outcomes of the bootstrap loop. -/
inductive BootErr where
  | procOpenFail (msg : String)
  | permissionDenied
  | versionUnreadable
  | unsupportedVersion (msg : String)
  | addrNotFound
deriving DecidableEq

/-- Result of get_process_ruby_state, carrying the number of 1 ms retry
sleeps performed; `.fuelOut` is the model artifact for running out of fuel. -/
inductive BootResult where
  | ok (st : RubyState) (retries : Nat)
  | err (e : BootErr) (retries : Nat)
  | fuelOut
deriving DecidableEq

/-- Retry-sleep count of a bootstrap result. -/
def BootResult.retries : BootResult → Nat
  | .ok _ r => r
  | .err _ r => r
  | .fuelOut => 0

/-- Oracles for the external calls inside the bootstrap loop, indexed by the
attempt number: Process::new_with_retry, get_ruby_version (error payload is
the permission-denied flag of its root cause), and the three
address_finder lookups (address_finder.rs is not under src/). -/
structure BootEnv where
  openProc : Nat → Except String Unit
  readVersion : Nat → Except Bool String
  findCta : Nat → String → Except String Nat
  findVma : Nat → String → Except String Nat
  findGsa : Nat → String → Option Nat

/-- get_process_ruby_state from initialize.rs.  One recursive call per loop
iteration; `fuel` only bounds the model (the theorems show fuel 102 is never
exhausted).  `i` is the source's retry counter, `sleeps` counts the 1 ms
sleeps performed so far.  The two dispatcher `panic!`s reachable here (for
an unsupported detected or forced version) are modelled as the terminal
`.err (.unsupportedVersion _)` outcome. -/
def get_process_ruby_state (forceVersion : Option String) (env : BootEnv) :
    Nat → Nat → Nat → Nat → BootResult
  | 0, _, _, _ => .fuelOut
  | fuel + 1, n, i, sleeps =>
    match env.openProc n with
    | .error msg => .err (.procOpenFail msg) sleeps
    | .ok _ =>
      match (match forceVersion with
             | some v => Except.ok v
             | none => env.readVersion n) with
      | .error permDenied =>
        if i + 1 > 100 then
          .err (if permDenied then .permissionDenied else .versionUnreadable) sleeps
        else get_process_ruby_state forceVersion env fuel (n + 1) (i + 1) (sleeps + 1)
      | .ok version =>
        match (if strLt version "3.0.0" then
                 (is_maybe_thread_function version).map (fun _ => ())
               else Except.ok ()) with
        | .error msg => .err (.unsupportedVersion msg) sleeps
        | .ok _ =>
          match (if strLt version "3.0.0" then env.findCta n version else .ok 0 :
                   Except String Nat),
                env.findVma n version with
          | .ok c, .ok m =>
            match get_stack_trace_function version with
            | .error msg => .err (.unsupportedVersion msg) sleeps
            | .ok f => .ok ⟨c, m, env.findGsa n version, f⟩ sleeps
          | _, _ =>
            if i > 100 then .err .addrNotFound sleeps
            else get_process_ruby_state forceVersion env fuel (n + 1) (i + 1) (sleeps + 1)

/- ===== C ABI surface (src/lib.rs: rbspy_snapshot, rbspy_cleanup) ===== -/

/-- Modelled from the spec: the Display rendering of a frame used by the C ABI,
`<method> - <shortened-path>:<line>` (§6); the Display impl lives in
types.rs, which is not under src/.  Shortening is applied afterwards by
`shorten`, exactly as in rbspy_snapshot. -/
def renderFrame (f : StackFrame) : List Char :=
  f.name.toList ++ " - ".toList ++ f.path.toList ++ ":".toList ++ (Nat.repr f.lineno).toList

/-- Pattern "/gems/" searched by rbspy_snapshot. -/
def gemsPat : List Char := "/gems/".toList

/-- Pattern "/ruby/" searched by rbspy_snapshot. -/
def rubyPat : List Char := "/ruby/".toList

/-- Pattern "/" searched by rbspy_snapshot inside the /ruby/ branch. -/
def slashPat : List Char := "/".toList

/-- The path-shortening block of rbspy_snapshot (src/lib.rs), applied to the
whole rendered frame string `s`: first occurrence of the cwd drops
everything through the cwd plus one more character (`none` models the Rust
slice panic when that lands past the end of the string, i.e. the cwd is a
suffix of `s`); else an occurrence of "/gems/" drops everything before
"gems/"; else an occurrence of "/ruby/" drops through it and then through
the next "/".  (Those two branch offsets are always in range.) -/
def shorten (cwd s : List Char) : Option (List Char) :=
  match findSub s cwd with
  | some i =>
    if i + cwd.length + 1 ≤ s.length then some (s.drop (i + cwd.length + 1)) else none
  | none =>
    match findSub s gemsPat with
    | some i => some (s.drop (i + 1))
    | none =>
      match findSub s rubyPat with
      | some i =>
        let s2 := s.drop (i + 6)
        match findSub s2 slashPat with
        | some j => some (s2.drop (j + 1))
        | none => some s2
      | none => some s

/-- The string_list loop of rbspy_snapshot: iterate the trace's frames in
reverse (trace.iter().rev()), render and shorten each; `none` if a shorten
panics. -/
def snapshotChunks (cwd : List Char) (t : StackTrace) : Option (List (List Char)) :=
  mapOpt (fun f => shorten cwd (renderFrame f)) t.frames.reverse

/-- The `;`-joined snapshot payload written to the caller's buffer. -/
def snapshotPayload (cwd : List Char) (t : StackTrace) : Option (List Char) :=
  (snapshotChunks cwd t).map (List.intercalate ";".toList)

/-- Modelled from the spec: the Display string of an error surfaced by
get_trace (`err.to_string()` in lib.rs); the Display impls live outside
src/, and no claim depends on the exact text of these messages. -/
def errMessage : GetTraceErr → String
  | .onCpu e => e
  | .mem (.invalidAddressError a) => "invalid address " ++ Nat.repr a
  | .mem .processEnded => "process ended"
  | .mem (.other m) => m
  | .reinitFailed e => e

/-- HashMap::get on the pid → getter registry (keys unique). -/
def regFind : List (Nat × StackTraceGetter) → Nat → Option StackTraceGetter
  | [], _ => none
  | (k, g) :: rest, pid => if k = pid then some g else regFind rest pid

/-- HashMap::remove on the registry (keys unique, so filtering is removal). -/
def regRemove (reg : List (Nat × StackTraceGetter)) (pid : Nat) :
    List (Nat × StackTraceGetter) :=
  reg.filter (fun e => e.1 ≠ pid)

/-- In-place mutation of the getter behind HashMap::get_mut. -/
def regUpdate (reg : List (Nat × StackTraceGetter)) (pid : Nat)
    (g : StackTraceGetter) : List (Nat × StackTraceGetter) :=
  reg.map (fun e => if e.1 = pid then (e.1, g) else e)

/-- rbspy_cleanup from src/lib.rs: remove the entry (if any) and return 1. -/
def rbspy_cleanup (reg : List (Nat × StackTraceGetter)) (pid : Nat) :
    List (Nat × StackTraceGetter) × Int :=
  (regRemove reg pid, 1)

/-- What one rbspy_snapshot call did: its i32 return value, the payload bytes
written to the caller's buffer (if any), the message written to the error
buffer (if any), and the registry afterwards. -/
structure SnapshotOut where
  ret : Int
  buf : Option (List Char)
  errBuf : Option String
  reg : List (Nat × StackTraceGetter)
deriving DecidableEq

/-- rbspy_snapshot from src/lib.rs.  `cwd` is the current directory string
(possibly empty, as after to_str().unwrap_or("")); `env` is the oracle for
the getter's sample; `none` models a diverging copy_error or a panicking
shorten.  Missing pid: write "could not find spy for this pid" to the error
buffer.  Found: run get_trace (mutating the stored getter); on Ok(Some)
build the reversed, shortened, `;`-joined payload and write it if it fits
(else "buffer is too small"); on Ok(None) write "failure"; on Err write the
error's message. -/
def rbspy_snapshot (reg : List (Nat × StackTraceGetter)) (pid : Nat)
    (cwd : List Char) (len errLen : Int) (env : TraceEnv) : Option SnapshotOut :=
  match regFind reg pid with
  | none =>
    (copyErrorResult errLen "could not find spy for this pid").map
      (fun r => ⟨r.1, none, some r.2, reg⟩)
  | some getter =>
    let out := get_trace getter env
    let reg' := regUpdate reg pid out.getter
    match out.result with
    | .error e =>
      (copyErrorResult errLen (errMessage e)).map (fun r => ⟨r.1, none, some r.2, reg'⟩)
    | .ok none =>
      (copyErrorResult errLen "failure").map (fun r => ⟨r.1, none, some r.2, reg'⟩)
    | .ok (some trace) =>
      match snapshotPayload cwd trace with
      | none => none
      | some joined =>
        if len < (joined.length : Int) then
          (copyErrorResult errLen "buffer is too small").map
            (fun r => ⟨r.1, none, some r.2, reg'⟩)
        else some ⟨(joined.length : Int), some joined, none, reg'⟩

/- ===== Concrete fixtures used by the evaluation theorems and witnesses ===== -/

/-- A getter as produced by a successful bootstrap for pid 42 (lock_process
set, on_cpu not set). -/
def g0 : StackTraceGetter :=
  ⟨42, 1000, 2000, none, .reader "ruby_2_7_0::get_stack_trace", 0, true, false⟩

/-- A trace as a Version Reader returns it, with no pid stamped. -/
def t0 : StackTrace := ⟨none, [⟨"main", "app.rb", 1⟩], none⟩

/-- Fresh VM state discovered by a reinitialize. -/
def st0 : RubyState := ⟨1080, 2080, none, .reader "ruby_2_7_0::get_stack_trace"⟩

/-- Oracle for a call whose first attempt hits InvalidAddressError at exactly
g0's current-thread slot, whose reinitialize succeeds with st0, and whose
second attempt returns t0. -/
def env0 : TraceEnv :=
  ⟨.ok [], .error (.invalidAddressError 1000), .ok st0, .ok (some t0), true⟩

/-- Oracle for a call whose first attempt fails with a non-address
MemoryCopyError while the target is still alive (exe() succeeds). -/
def env5 : TraceEnv := { env0 with attempt1 := .error (.other "read failed") }

/-- The getter g0 with the on-CPU gate enabled. -/
def g8 : StackTraceGetter := { g0 with onCpu := true }

/-- Oracle whose thread list reports every thread off-CPU. -/
def env8 : TraceEnv := { env0 with threads := .ok [.ok false, .ok false] }

/-- Innermost (most recently entered) frame of the two-frame fixture trace. -/
def innerFrame : StackFrame := ⟨"work", "a.rb", 2⟩

/-- Outermost (script top-level) frame of the two-frame fixture trace. -/
def outerFrame : StackFrame := ⟨"main", "a.rb", 1⟩

/-- A trace with frames ordered innermost first / outer-most last (§3). -/
def t7 : StackTrace := ⟨some 42, [innerFrame, outerFrame], none⟩

/-- A cwd that occurs in none of t7's rendered frames. -/
def cwd7 : List Char := "/zzz".toList

/-- A frame whose source path lies under the caller's cwd. -/
def cxFrame : StackFrame := ⟨"foo", "/home/user/proj/x.rb", 3⟩

/-- The caller's cwd for the shortening counterexample. -/
def cxCwd : List Char := "/home/user/proj".toList

/-- Bootstrap oracle whose address discovery keeps failing with retryable
errors on every attempt (the process opens fine). -/
def envAddrFail : BootEnv :=
  ⟨fun _ => .ok (), fun _ => .error false,
   fun _ _ => .error "not found", fun _ _ => .error "not found", fun _ _ => none⟩

/- ===== Helper lemmas ===== -/

theorem tableLookup_eq_none :
    ∀ {l : List (String × String)} {q : String},
      q ∉ l.map Prod.fst → tableLookup l q = none := by
  intro l
  induction l with
  | nil => intro q _; rfl
  | cons e rest ih =>
    intro q h
    obtain ⟨k, v⟩ := e
    simp only [List.map_cons, List.mem_cons, not_or] at h
    simp only [tableLookup]
    rw [if_neg (fun hk => h.1 hk.symm)]
    exact ih h.2

theorem tableLookup_isSome_of_mem :
    ∀ {l : List (String × String)} {q : String},
      q ∈ l.map Prod.fst → (tableLookup l q).isSome := by
  intro l
  induction l with
  | nil => intro q h; simp at h
  | cons e rest ih =>
    intro q h
    obtain ⟨k, v⟩ := e
    simp only [tableLookup]
    by_cases hk : k = q
    · rw [if_pos hk]; rfl
    · rw [if_neg hk]
      apply ih
      simp only [List.map_cons, List.mem_cons] at h
      exact h.resolve_left (fun hq => hk hq.symm)

theorem copy_error_loop (fuel : Nat) :
    ∀ errLen : Int, (errorBufferTooSmall.length : Int) > errLen →
      copy_error fuel errLen errorBufferTooSmall = none := by
  induction fuel with
  | zero => intro errLen _; rfl
  | succ f ih =>
    intro errLen h
    simp only [copy_error]
    rw [if_pos h]
    exact ih errLen h

theorem copy_error_eq_closed_form (fuel : Nat) (errLen : Int) (s : String)
    (h : 2 ≤ fuel) : copy_error fuel errLen s = copyErrorResult errLen s := by
  obtain ⟨f, rfl⟩ : ∃ f, fuel = f + 2 := ⟨fuel - 2, by omega⟩
  have step : ∀ (fu : Nat) (s' : String), copy_error (fu + 1) errLen s' =
      if (s'.length : Int) > errLen then copy_error fu errLen errorBufferTooSmall
      else some (-(s'.length : Int), s') := fun _ _ => rfl
  rw [step (f + 1) s]
  unfold copyErrorResult
  by_cases h1 : (s.length : Int) > errLen
  · rw [if_pos h1, if_pos h1]
    by_cases h2 : (errorBufferTooSmall.length : Int) > errLen
    · rw [if_pos h2]
      exact copy_error_loop (f + 1) errLen h2
    · rw [if_neg h2, step f errorBufferTooSmall, if_neg h2]
  · rw [if_neg h1, if_neg h1]

theorem copyErrorResult_of_fits (errLen : Int) (s : String)
    (h : (s.length : Int) ≤ errLen) :
    copyErrorResult errLen s = some (-(s.length : Int), s) := by
  unfold copyErrorResult
  rw [if_neg (by omega)]

theorem mapOpt_cons_eq (f : α → Option β) (x : α) (l : List α) :
    mapOpt f (x :: l) =
      (match f x, mapOpt f l with
       | some b, some bs => some (b :: bs)
       | _, _ => none) := rfl

theorem mapOpt_head {f : α → Option β} {l : List α} {ys : List β} {a : α}
    (hm : mapOpt f l = some ys) (hh : l.head? = some a) : ys.head? = f a := by
  cases l with
  | nil => exact Option.noConfusion hh
  | cons x t =>
    have hxa : x = a := by simpa using hh
    rw [mapOpt_cons_eq] at hm
    cases hb : f x with
    | none => rw [hb] at hm; exact Option.noConfusion hm
    | some b =>
      rw [hb] at hm
      cases hbs : mapOpt f t with
      | none => rw [hbs] at hm; exact Option.noConfusion hm
      | some bs =>
        rw [hbs] at hm
        have hys : (b :: bs) = ys := Option.some.inj hm
        rw [← hys, ← hxa, hb]
        rfl

theorem mapOpt_getLast {f : α → Option β} :
    ∀ (l : List α) (ys : List β) (a : α),
      mapOpt f l = some ys → l.getLast? = some a → ys.getLast? = f a := by
  intro l
  induction l with
  | nil => intro ys a hm hh; exact Option.noConfusion hh
  | cons x t ih =>
    intro ys a hm hh
    cases t with
    | nil =>
      have hxa : x = a := by simpa using hh
      rw [mapOpt_cons_eq] at hm
      cases hb : f x with
      | none => rw [hb] at hm; exact Option.noConfusion hm
      | some b =>
        rw [hb] at hm
        have hys : ([b] : List β) = ys := Option.some.inj hm
        rw [← hys, ← hxa, hb]
        rfl
    | cons y t' =>
      rw [List.getLast?_cons_cons] at hh
      rw [mapOpt_cons_eq] at hm
      cases hb : f x with
      | none => rw [hb] at hm; exact Option.noConfusion hm
      | some b =>
        rw [hb] at hm
        cases hbs : mapOpt f (y :: t') with
        | none => rw [hbs] at hm; exact Option.noConfusion hm
        | some bs =>
          rw [hbs] at hm
          have hys : (b :: bs) = ys := Option.some.inj hm
          rw [mapOpt_cons_eq] at hbs
          cases hby : f y with
          | none => rw [hby] at hbs; exact Option.noConfusion hbs
          | some b' =>
            rw [hby] at hbs
            cases hbt : mapOpt f t' with
            | none => rw [hbt] at hbs; exact Option.noConfusion hbs
            | some bs' =>
              rw [hbt] at hbs
              have hbs2 : (b' :: bs') = bs := Option.some.inj hbs
              have hm' : mapOpt f (y :: t') = some (b' :: bs') := by
                rw [mapOpt_cons_eq, hby, hbt]
              rw [← hys, ← hbs2, List.getLast?_cons_cons]
              exact ih (b' :: bs') a hm' hh

theorem anyActive_of_all_false :
    ∀ (ts : List (Except String Bool)), (∀ b ∈ ts, b = .ok false) →
      anyActive ts = .ok false := by
  intro ts
  induction ts with
  | nil => intro _; rfl
  | cons b t ih =>
    intro h
    have hb : b = .ok false := h b (List.mem_cons_self _ _)
    subst hb
    simp only [anyActive]
    exact ih (fun x hx => h x (List.mem_cons_of_mem _ hx))

theorem get_trace_core_events_extend (g : StackTraceGetter) (env : TraceEnv)
    (evs0 : List TraceEv) : ∃ l, (get_trace_core g env evs0).events = evs0 ++ l := by
  simp only [get_trace_core, handleOtherError]
  split
  · exact ⟨attemptEvents g.lockProcess, rfl⟩
  · exact ⟨attemptEvents g.lockProcess, rfl⟩
  · split
    · split
      · exact ⟨attemptEvents g.lockProcess ++ [.reinitCall],
          by simp [List.append_assoc]⟩
      · split
        · exact ⟨attemptEvents g.lockProcess ++ ([TraceEv.reinitCall] ++
            attemptEvents g.lockProcess), by simp [List.append_assoc, applyReinit]⟩
        · exact ⟨attemptEvents g.lockProcess ++ ([TraceEv.reinitCall] ++
            attemptEvents g.lockProcess), by simp [List.append_assoc, applyReinit]⟩
    · split
      · exact ⟨attemptEvents g.lockProcess, rfl⟩
      · exact ⟨attemptEvents g.lockProcess, rfl⟩
  · split
    · exact ⟨attemptEvents g.lockProcess, rfl⟩
    · exact ⟨attemptEvents g.lockProcess, rfl⟩

theorem regRemove_of_missing :
    ∀ {reg : List (Nat × StackTraceGetter)} {pid : Nat},
      regFind reg pid = none → regRemove reg pid = reg := by
  intro reg
  induction reg with
  | nil => intro pid _; rfl
  | cons e rest ih =>
    intro pid h
    obtain ⟨k, g⟩ := e
    simp only [regFind] at h
    by_cases hk : k = pid
    · rw [if_pos hk] at h; cases h
    · rw [if_neg hk] at h
      have hrest := ih h
      simp only [regRemove] at hrest ⊢
      rw [List.filter_cons,
        if_pos (show decide ((k, g).1 ≠ pid) = true by simpa using hk), hrest]

theorem boot_bound (fv : Option String) (env : BootEnv) :
    ∀ fuel n i sleeps, 102 ≤ fuel + i → 1 ≤ fuel →
      get_process_ruby_state fv env fuel n i sleeps ≠ .fuelOut
      ∧ (get_process_ruby_state fv env fuel n i sleeps).retries ≤ sleeps + (101 - i) := by
  intro fuel
  induction fuel with
  | zero => intro n i s _ h2; exact absurd h2 (by omega)
  | succ f ih =>
    intro n i s hfi _
    simp only [get_process_ruby_state]
    repeat' split
    all_goals
      first
      | exact ⟨fun hc => BootResult.noConfusion hc, by simp only [BootResult.retries]; omega⟩
      | (obtain ⟨hA, hB⟩ := ih (n + 1) (i + 1) (s + 1) (by omega) (by omega)
         exact ⟨hA, by omega⟩)

theorem get_trace_passes_gate (g : StackTraceGetter) (env : TraceEnv)
    (hgate : g.onCpu = false ∨ is_on_cpu_os_specific env.threads = .ok true) :
    get_trace g env = get_trace_core g env (if g.onCpu then [.onCpuCheck] else []) := by
  rcases hgate with h | h
  · simp [get_trace, h]
  · by_cases hc : g.onCpu
    · simp [get_trace, hc, h]
    · simp [get_trace, hc]

theorem get_trace_core_reinit (g : StackTraceGetter) (env : TraceEnv) (st : RubyState)
    (evs0 : List TraceEv)
    (h1 : env.attempt1 = .error (.invalidAddressError g.currentThreadAddrLocation))
    (h2 : env.reinit = .ok st) :
    get_trace_core g env evs0 =
      ⟨(match env.attempt2 with
        | .ok r => Except.ok r
        | .error e => Except.error (.mem e)),
       applyReinit g st,
       evs0 ++ attemptEvents g.lockProcess ++ [.reinitCall] ++
         attemptEvents g.lockProcess⟩ := by
  simp only [get_trace_core, h1, h2]
  rw [if_pos trivial]
  cases h3 : env.attempt2 with
  | ok r => rfl
  | error e => rfl

theorem gate_events_count_zero (g : StackTraceGetter) (e : TraceEv)
    (hs : e ≠ TraceEv.onCpuCheck) :
    ((if g.onCpu then [TraceEv.onCpuCheck] else []) : List TraceEv).count e = 0 := by
  by_cases hcpu : g.onCpu
  · rw [if_pos hcpu]
    cases e
    · exact absurd rfl hs
    · decide
    · decide
    · decide
  · rw [if_neg hcpu]
    rfl

theorem attemptEvents_count_sample (b : Bool) :
    (attemptEvents b).count .sampleCall = 1 := by
  cases b <;> decide

theorem attemptEvents_count_reinit (b : Bool) :
    (attemptEvents b).count .reinitCall = 0 := by
  cases b <;> decide

/- ===== Claim theorems ===== -/

/-- C1 (code bug evaluation): a get_trace call on the pid-42 getter whose
first attempt fails with InvalidAddressError at the current-thread slot and
whose post-reinitialize retry succeeds returns the version reader's trace
verbatim — its pid field is still none, not some 42: the retry path of
get_trace skips the `trace.pid = Some(self.process.pid)` stamping that the
first-attempt success path performs. -/
theorem get_trace_retry_skips_pid_stamp :
    (get_trace g0 env0).result = .ok (some t0)
    ∧ t0.pid = none
    ∧ g0.pid = 42
    ∧ (get_trace g0 env0).getter.reinitCount = 1 := by
  decide

/-- C4: when the first attempt fails with InvalidAddressError at exactly the
getter's current_thread_addr_location and the bootstrap re-run succeeds,
get_trace reinitializes exactly once (one reinit event, reinit_count up by
exactly 1), retries the sample exactly once (two sample events in the whole
call), and surfaces the outcome of that second attempt. -/
theorem get_trace_reinitializes_exactly_once (g : StackTraceGetter) (env : TraceEnv)
    (st : RubyState)
    (hgate : g.onCpu = false ∨ is_on_cpu_os_specific env.threads = .ok true)
    (h1 : env.attempt1 = .error (.invalidAddressError g.currentThreadAddrLocation))
    (h2 : env.reinit = .ok st) :
    (get_trace g env).getter.reinitCount = g.reinitCount + 1
    ∧ (get_trace g env).events.count .reinitCall = 1
    ∧ (get_trace g env).events.count .sampleCall = 2
    ∧ (get_trace g env).result =
        (match env.attempt2 with
         | .ok r => Except.ok r
         | .error e => Except.error (.mem e)) := by
  rw [get_trace_passes_gate g env hgate, get_trace_core_reinit g env st _ h1 h2]
  refine ⟨rfl, ?_, ?_, rfl⟩
  · simp [List.count_append, attemptEvents_count_reinit,
      gate_events_count_zero g TraceEv.reinitCall (by decide)]
  · simp [List.count_append, attemptEvents_count_sample,
      gate_events_count_zero g TraceEv.sampleCall (by decide)]

/-- C4 witness: the reinit-once law evaluated on the concrete pid-42 getter
and oracle. -/
theorem get_trace_reinitializes_exactly_once_witness :
    (get_trace g0 env0).getter.reinitCount = g0.reinitCount + 1
    ∧ (get_trace g0 env0).events.count .reinitCall = 1
    ∧ (get_trace g0 env0).events.count .sampleCall = 2
    ∧ (get_trace g0 env0).result =
        (match env0.attempt2 with
         | .ok r => Except.ok r
         | .error e => Except.error (.mem e)) :=
  get_trace_reinitializes_exactly_once g0 env0 st0 (Or.inl rfl) rfl rfl

/-- C5: when the first attempt fails with a MemoryCopyError that is not
InvalidAddressError at the current-thread slot, get_trace probes exe() on
the process handle: a failed probe yields the terminal ProcessEnded,
otherwise the original error is propagated unchanged; no reinitialize
happens and the getter is untouched. -/
theorem get_trace_probes_exe_on_other_errors (g : StackTraceGetter) (env : TraceEnv)
    (e : MemoryCopyError)
    (hgate : g.onCpu = false ∨ is_on_cpu_os_specific env.threads = .ok true)
    (h1 : env.attempt1 = .error e)
    (hne : ∀ addr, e = .invalidAddressError addr → addr ≠ g.currentThreadAddrLocation) :
    (get_trace g env).result =
      (if env.exeOk then Except.error (.mem e) else Except.error (.mem .processEnded))
    ∧ (get_trace g env).getter = g
    ∧ (get_trace g env).events.count .reinitCall = 0 := by
  rw [get_trace_passes_gate g env hgate]
  have hcore : get_trace_core g env (if g.onCpu then [.onCpuCheck] else []) =
      handleOtherError g env e
        ((if g.onCpu then [.onCpuCheck] else []) ++ attemptEvents g.lockProcess) := by
    cases e with
    | invalidAddressError addr =>
      simp only [get_trace_core, h1]
      rw [if_neg (hne addr rfl)]
    | processEnded => simp only [get_trace_core, h1]
    | other m => simp only [get_trace_core, h1]
  rw [hcore]
  unfold handleOtherError
  by_cases hx : env.exeOk
  · rw [if_pos hx, if_pos hx]
    refine ⟨rfl, rfl, ?_⟩
    simp [List.count_append, attemptEvents_count_reinit,
      gate_events_count_zero g TraceEv.reinitCall (by decide)]
  · rw [if_neg hx, if_neg hx]
    refine ⟨rfl, rfl, ?_⟩
    simp [List.count_append, attemptEvents_count_reinit,
      gate_events_count_zero g TraceEv.reinitCall (by decide)]

/-- C5 witness: the exe-probe law evaluated on a concrete non-address read
failure with the target still alive. -/
theorem get_trace_probes_exe_on_other_errors_witness :
    (get_trace g0 env5).result =
      (if env5.exeOk then Except.error (.mem (.other "read failed"))
       else Except.error (.mem .processEnded))
    ∧ (get_trace g0 env5).getter = g0
    ∧ (get_trace g0 env5).events.count .reinitCall = 0 :=
  get_trace_probes_exe_on_other_errors g0 env5 (.other "read failed") (Or.inl rfl) rfl
    (fun _ h => MemoryCopyError.noConfusion h)

/-- C8: with on_cpu set, if every thread reports off-CPU the call returns
success with the empty option and its only event is the on-CPU check — in
particular the process lock is never acquired on that path; and in every
on_cpu call the first event is the on-CPU check, so the query precedes any
lock acquisition. -/
theorem on_cpu_gate_before_lock (g : StackTraceGetter) (env : TraceEnv)
    (ts : List (Except String Bool)) (hcpu : g.onCpu = true) :
    (env.threads = .ok ts → (∀ b ∈ ts, b = .ok false) →
      (get_trace g env).result = .ok none
      ∧ (get_trace g env).events = [.onCpuCheck]
      ∧ TraceEv.lockAcquire ∉ (get_trace g env).events)
    ∧ (get_trace g env).events.head? = some .onCpuCheck := by
  constructor
  · intro ht hall
    have hgate : is_on_cpu_os_specific env.threads = .ok false := by
      rw [is_on_cpu_os_specific, ht]
      exact anyActive_of_all_false ts hall
    have hred : get_trace g env = ⟨.ok none, g, [.onCpuCheck]⟩ := by
      simp [get_trace, hcpu, hgate]
    rw [hred]
    exact ⟨rfl, rfl, by simp⟩
  · cases hg : is_on_cpu_os_specific env.threads with
    | error e => simp [get_trace, hcpu, hg]
    | ok b =>
      cases b with
      | false => simp [get_trace, hcpu, hg]
      | true =>
        obtain ⟨l, hl⟩ := get_trace_core_events_extend g env [.onCpuCheck]
        simp [get_trace, hcpu, hg, hl]

/-- C8 witness: the gate law evaluated on the on_cpu getter with a thread
list reporting every thread off-CPU. -/
theorem on_cpu_gate_before_lock_witness :
    (get_trace g8 env8).result = .ok none
    ∧ (get_trace g8 env8).events = [.onCpuCheck]
    ∧ TraceEv.lockAcquire ∉ (get_trace g8 env8).events :=
  (on_cpu_gate_before_lock g8 env8 [.ok false, .ok false] rfl).1 rfl (by decide)

/-- C9 counterexample: with a forced version and address discovery failing
with a retryable error on every attempt, the bootstrap loop performs 101
retry iterations (sleeps) before erroring out — more than the claimed
"at most 100". -/
theorem bootstrap_101_retries_cx :
    get_process_ruby_state (some "2.7.0") envAddrFail 150 0 0 0 =
      .err .addrNotFound 101
    ∧ ¬ ((get_process_ruby_state (some "2.7.0") envAddrFail 150 0 0 0).retries ≤ 100) := by
  constructor
  · decide
  · decide

/-- C9 (amended): the bootstrap loop get_process_ruby_state never loops
unboundedly: with any fuel of at least 102 iterations it never exhausts the
fuel, and it performs at most 101 retry iterations (1 ms sleeps) before
terminating — 100 on the version-detection path, 101 on the
address-discovery path. -/
theorem bootstrap_bounded_retries (fv : Option String) (env : BootEnv)
    (fuel : Nat) (h : 102 ≤ fuel) :
    get_process_ruby_state fv env fuel 0 0 0 ≠ .fuelOut
    ∧ (get_process_ruby_state fv env fuel 0 0 0).retries ≤ 101 := by
  obtain ⟨hA, hB⟩ := boot_bound fv env fuel 0 0 0 (by omega) (by omega)
  exact ⟨hA, by omega⟩

/-- C9 witness: the bound instantiated at fuel 102 on the always-failing
address-discovery oracle. -/
theorem bootstrap_bounded_retries_witness :
    get_process_ruby_state (some "2.7.0") envAddrFail 102 0 0 0 ≠ .fuelOut
    ∧ (get_process_ruby_state (some "2.7.0") envAddrFail 102 0 0 0).retries ≤ 101 :=
  bootstrap_bounded_retries (some "2.7.0") envAddrFail 102 (by omega)

/-- C2: the version dispatch is an exact-match table: every supported version
is mapped to its bound reader pair, and every other version string takes
the single terminal arm — modelled as the terminal error carrying the
panic message, which embeds the detected version and the force_version
suggestion — with no fuzzy matching of near-miss versions. -/
theorem version_dispatch_exact_match (v : String) :
    (v ∈ supportedVersions →
      (∃ f, is_maybe_thread_function v = .ok f)
      ∧ (∃ f, get_stack_trace_function v = .ok f))
    ∧ (v ∉ supportedVersions →
      is_maybe_thread_function v = .error (unsupportedVersionMessage v)
      ∧ get_stack_trace_function v = .error (unsupportedVersionMessage v)) := by
  constructor
  · intro hv
    have h := tableLookup_isSome_of_mem (l := rubyVersionModules) (q := v) hv
    obtain ⟨m, hm⟩ := Option.isSome_iff_exists.mp h
    constructor
    · exact ⟨.reader (m ++ "::is_maybe_thread"),
        by unfold is_maybe_thread_function; rw [hm]⟩
    · exact ⟨.reader (m ++ "::get_stack_trace"),
        by unfold get_stack_trace_function; rw [hm]⟩
  · intro hv
    have h := tableLookup_eq_none (l := rubyVersionModules) (q := v) hv
    exact ⟨by unfold is_maybe_thread_function; rw [h],
           by unfold get_stack_trace_function; rw [h]⟩

/-- C2 witness: the near-miss version "2.7.8" (one past the last supported
2.7 patch) hits the terminal arm of both dispatchers. -/
theorem version_dispatch_exact_match_witness :
    is_maybe_thread_function "2.7.8" = .error (unsupportedVersionMessage "2.7.8")
    ∧ get_stack_trace_function "2.7.8" = .error (unsupportedVersionMessage "2.7.8") :=
  (version_dispatch_exact_match "2.7.8").2 (by decide)

/-- C3 (code bug evaluation): copy_error called with err_len 0 and the
one-byte message "x" never terminates: the message does not fit, so the
source recurses with the 25-byte "error buffer is too small" fallback,
which does not fit either, and the recursion repeats itself forever — no
fuel suffices. -/
theorem copy_error_nonterminating_on_small_buffer :
    ∀ fuel : Nat, copy_error fuel 0 "x" = none := by
  intro fuel
  cases fuel with
  | zero => rfl
  | succ f =>
    have step : copy_error (f + 1) 0 "x" =
        if (("x".length : Int)) > 0 then copy_error f 0 errorBufferTooSmall
        else some (-("x".length : Int), "x") := rfl
    rw [step, if_pos (by decide)]
    exact copy_error_loop f 0 (by decide)

/-- C6 counterexample: for the frame foo at /home/user/proj/x.rb:3 with cwd
/home/user/proj, the rendered snapshot chunk is just "x.rb:3" — the
shortening consumed the method name "foo", refuting the claim that the
method name is preserved and only the path component is shortened. -/
theorem shorten_drops_method_name_cx :
    shorten cxCwd (renderFrame cxFrame) = some "x.rb:3".toList
    ∧ ¬ "foo".toList <:+: ((shorten cxCwd (renderFrame cxFrame)).getD []) := by
  decide

/-- C6 (amended): the shortening is applied to the whole rendered string
`<method> - <path>:<line>`, not only to the path: the result is always a
contiguous suffix of the rendered string (when the computation does not
panic) — dropping through the first cwd occurrence plus one character, else
to "gems/", else through the "/ruby/<token>/" separator — and the string is
unchanged (method name preserved) only when no pattern occurs. -/
theorem shorten_whole_line_suffix (cwd s : List Char) :
    (shorten cwd s = none ∨ ∃ k, shorten cwd s = some (s.drop k))
    ∧ (∀ i, findSub s cwd = some i → i + cwd.length + 1 ≤ s.length →
        shorten cwd s = some (s.drop (i + cwd.length + 1)))
    ∧ (findSub s cwd = none → ∀ i, findSub s gemsPat = some i →
        shorten cwd s = some (s.drop (i + 1)))
    ∧ (findSub s cwd = none → findSub s gemsPat = none → findSub s rubyPat = none →
        shorten cwd s = some s) := by
  unfold shorten
  cases hc : findSub s cwd with
  | some i =>
    dsimp only
    refine ⟨?_, ?_, ?_, ?_⟩
    · by_cases hr : i + cwd.length + 1 ≤ s.length
      · rw [if_pos hr]; exact Or.inr ⟨i + cwd.length + 1, rfl⟩
      · rw [if_neg hr]; exact Or.inl rfl
    · intro j hj hr
      have hij : i = j := Option.some.inj hj
      subst hij
      rw [if_pos hr]
    · intro h; exact absurd h (by simp)
    · intro h; exact absurd h (by simp)
  | none =>
    dsimp only
    cases hg : findSub s gemsPat with
    | some j =>
      dsimp only
      refine ⟨Or.inr ⟨j + 1, rfl⟩, ?_, ?_, ?_⟩
      · intro i hi _; exact Option.noConfusion hi
      · intro _ i hi
        have hij : j = i := Option.some.inj hi
        subst hij
        rfl
      · intro _ h; exact absurd h (by simp)
    | none =>
      dsimp only
      cases hru : findSub s rubyPat with
      | some u =>
        dsimp only
        refine ⟨?_, ?_, ?_, ?_⟩
        · cases hsl : findSub (List.drop (u + 6) s) slashPat with
          | some w =>
            dsimp only
            exact Or.inr ⟨(u + 6) + (w + 1), by rw [List.drop_drop]⟩
          | none =>
            dsimp only
            exact Or.inr ⟨u + 6, rfl⟩
        · intro i hi _; exact Option.noConfusion hi
        · intro _ i hi; exact Option.noConfusion hi
        · intro _ _ h; exact absurd h (by simp)
      | none =>
        dsimp only
        exact ⟨Or.inr ⟨0, by rw [List.drop_zero]⟩,
               fun i hi _ => Option.noConfusion hi,
               fun _ i hi => Option.noConfusion hi,
               fun _ _ _ => rfl⟩

/-- C6 witness: the cwd case of the amended shortening law evaluated on the
concrete frame (the cwd occurs at index 6; 6 + 15 + 1 = 22 characters are
dropped from the 28-character rendered string). -/
theorem shorten_whole_line_suffix_witness :
    shorten cxCwd (renderFrame cxFrame) = some ((renderFrame cxFrame).drop 22) :=
  (shorten_whole_line_suffix cxCwd (renderFrame cxFrame)).2.1 6 (by decide) (by decide)

/-- C7 counterexample: for the trace whose stored frames are
[innerFrame, outerFrame] (innermost first, outer-most last), the snapshot
chunk list starts with the outer-most frame and ends with the innermost
one, and the joined payload is "main - a.rb:1;work - a.rb:2" — the
outer-most (top-level) frame is leftmost, not rightmost, refuting
"outer-most frame last". -/
theorem snapshot_outermost_first_cx :
    snapshotChunks cwd7 t7 = some [renderFrame outerFrame, renderFrame innerFrame]
    ∧ snapshotPayload cwd7 t7 = some "main - a.rb:1;work - a.rb:2".toList
    ∧ renderFrame outerFrame ≠ renderFrame innerFrame := by
  decide

/-- C7 (amended): the payload is built by reversing the stored
innermost-to-outermost frame order, so it is joined left-to-right from the
oldest (outer-most, script top-level) frame to the youngest: the first
chunk comes from the last stored frame and the last (rightmost) chunk from
the first stored (innermost) frame. -/
theorem snapshot_reversed_order (cwd : List Char) (t : StackTrace)
    (chunks : List (List Char)) (h : snapshotChunks cwd t = some chunks) :
    (∀ f, t.frames.head? = some f → chunks.getLast? = shorten cwd (renderFrame f))
    ∧ (∀ f, t.frames.getLast? = some f → chunks.head? = shorten cwd (renderFrame f)) := by
  unfold snapshotChunks at h
  constructor
  · intro f hf
    apply mapOpt_getLast t.frames.reverse chunks f h
    rw [List.getLast?_reverse]
    exact hf
  · intro f hf
    apply mapOpt_head h
    rw [List.head?_reverse]
    exact hf

/-- C7 witness: the ordering law evaluated on the concrete two-frame trace:
the last chunk is the shortened rendering of the innermost stored frame. -/
theorem snapshot_reversed_order_witness :
    ([renderFrame outerFrame, renderFrame innerFrame] : List (List Char)).getLast? =
      shorten cwd7 (renderFrame innerFrame) :=
  (snapshot_reversed_order cwd7 t7 [renderFrame outerFrame, renderFrame innerFrame]
    (by decide)).1 innerFrame (by decide)

/-- C10: for a pid with no registry entry, rbspy_snapshot (with an error
buffer of at least the 31 bytes the message needs) returns the negative
message length −31, writes "could not find spy for this pid" to the error
buffer, writes nothing to the payload buffer, and leaves the registry
unchanged; and rbspy_cleanup on such a pid still returns 1 (and also leaves
the registry unchanged). -/
theorem snapshot_missing_pid_behavior (reg : List (Nat × StackTraceGetter))
    (pid : Nat) (cwd : List Char) (len errLen : Int) (env : TraceEnv)
    (hmiss : regFind reg pid = none) (hfit : 31 ≤ errLen) :
    rbspy_snapshot reg pid cwd len errLen env =
      some ⟨-31, none, some "could not find spy for this pid", reg⟩
    ∧ rbspy_cleanup reg pid = (reg, 1) := by
  have hlen : (("could not find spy for this pid".length : Int)) = 31 := by decide
  constructor
  · unfold rbspy_snapshot
    rw [hmiss,
      copyErrorResult_of_fits errLen _ (by rw [hlen]; exact hfit)]
    simp only [Option.map_some']
    rw [hlen]
  · unfold rbspy_cleanup
    rw [regRemove_of_missing hmiss]

/-- C10 witness: the missing-pid behavior evaluated on the empty registry at
pid 7 with a 64-byte error buffer. -/
theorem snapshot_missing_pid_behavior_witness :
    rbspy_snapshot [] 7 [] 0 64 env0 =
      some ⟨-31, none, some "could not find spy for this pid", []⟩
    ∧ rbspy_cleanup [] 7 = ([], 1) :=
  snapshot_missing_pid_behavior [] 7 [] 0 64 env0 rfl (by decide)

end Rbspy
